import Mathlib

/-!
Verification of `flac2alac.py` (FLAC → ALAC batch converter).

Shallow embedding: the program's pure logic (path planning, command
construction, backend selection, input collection, exit-code aggregation) is
translated directly into Lean functions.  Filesystem and subprocess behaviour
is modelled by explicit oracles (`Env`, `SysEnv`, `FS`): each operation the
Python code performs against the outside world (`Path.exists`, `Path.stat`,
`Path.unlink`, `Path.mkdir`, `subprocess.run`, `subprocess.Popen`,
`shutil.which`) is a field of an oracle structure, returning either a value or
a modelled Python exception (`PyExc`).  Python exceptions that a function can
raise are modelled with `Except PyExc`; a function whose Python counterpart
catches every exception internally returns a plain value.  Side effects
performed by the code itself (directory creation, subprocess invocation,
deletion attempts, warnings) are recorded in an explicit `Effect` trace.

Paths are modelled as `pathlib.PurePosixPath` component lists: an absolute
path has `"/"` as its first component, mirroring `PurePath.parts`.
-/

namespace F2A

/-- Modelled Python exceptions, carrying `str(e)` where the code uses it. -/
inductive PyExc where
  | fileNotFound (msg : String)
  | valueError (msg : String)
  | assertionError
  | runtimeError (msg : String)
  | osError (msg : String)
deriving DecidableEq, Repr

/-- Model of Python `str(e)` for a caught exception. -/
def PyExc.str : PyExc → String
  | .fileNotFound m => m
  | .valueError m => m
  | .assertionError => ""
  | .runtimeError m => m
  | .osError m => m

deriving instance DecidableEq for Except

/-- A filesystem path, as `pathlib.PurePosixPath.parts`: an absolute path has
`"/"` as first component, and components contain no slash. -/
structure Path where
  parts : List String
deriving DecidableEq, Repr

/-- Index of the last occurrence of `'.'` in a character list. -/
def rfindDot : List Char → Option Nat
  | [] => none
  | c :: cs =>
    match rfindDot cs with
    | some i => some (i + 1)
    | none => if c = '.' then some 0 else none

/-- `PurePath.suffix` of a file name: the final `"."`-extension, empty when the
last dot is at position 0 (hidden file) or at the very end. -/
def nameSuffix (name : String) : String :=
  let cs := name.data
  match rfindDot cs with
  | none => ""
  | some i => if 0 < i ∧ i < cs.length - 1 then ⟨cs.drop i⟩ else ""

/-- `PurePath.name`: the final component, or `""` for the empty path and the
filesystem root. -/
def Path.name (p : Path) : String :=
  match p.parts.getLast? with
  | none => ""
  | some l => if l = "/" then "" else l

/-- `PurePath.suffix` of a path. -/
def Path.suffix (p : Path) : String := nameSuffix p.name

/-- The name produced by `PurePath.with_suffix`: strip the old suffix (when
present) and append the new one. -/
def withSuffixName (name suffix : String) : String :=
  let old := nameSuffix name
  if old = "" then name ++ suffix
  else ⟨name.data.take (name.data.length - old.data.length) ++ suffix.data⟩

/-- `PurePath.with_suffix`: replaces the extension of the final component;
raises `ValueError` on a path with an empty name. -/
def with_suffix (p : Path) (suffix : String) : Except PyExc Path :=
  if p.name = "" then .error (.valueError "empty name")
  else .ok ⟨p.parts.dropLast ++ [withSuffixName p.name suffix]⟩

/-- `str(path)`: components joined by `/` (the root contributing the leading
slash), `"."` for the empty path. -/
def Path.toStr (p : Path) : String :=
  match p.parts with
  | [] => "."
  | "/" :: rest => "/" ++ String.intercalate "/" rest
  | ps => String.intercalate "/" ps

/-- `PurePath.parent`: drop the final component; the empty path and the root
are their own parents. -/
def Path.parent (p : Path) : Path :=
  match p.parts with
  | [] => ⟨[]⟩
  | ["/"] => ⟨["/"]⟩
  | ps => ⟨ps.dropLast⟩

/-- `PurePath.__truediv__` (`a / b`): an absolute right operand replaces the
left one. -/
def Path.join (a b : Path) : Path :=
  if b.parts.head? = some "/" then b else ⟨a.parts ++ b.parts⟩

/-- `PurePath.relative_to`: the other path's components must be a prefix of
this path's; otherwise `ValueError`. -/
def relative_to (p other : Path) : Except PyExc Path :=
  if other.parts = [] ∧ p.parts.head? = some "/" then
    .error (.valueError (p.toStr ++ " is not in the subtree of " ++ other.toStr))
  else if other.parts.isPrefixOf p.parts then .ok ⟨p.parts.drop other.parts.length⟩
  else .error (.valueError (p.toStr ++ " is not in the subtree of " ++ other.toStr))

/-- Model of `Path.resolve()` for symlink-free, already-normalized paths: an
absolute path resolves to itself, a relative one is anchored at `cwd`. -/
def resolve (cwd : Path) (p : Path) : Path :=
  if p.parts.head? = some "/" then p else ⟨cwd.parts ++ p.parts⟩

/-- Python `str.lower()` (ASCII case mapping; the extensions compared by the
program are ASCII). -/
def lowerStr (s : String) : String := ⟨s.data.map Char.toLower⟩

/-- Python whitespace for `str.strip()`: space, tab, LF, VT, FF, CR. -/
def isPySpace (c : Char) : Bool :=
  c.val = 32 || c.val = 9 || c.val = 10 || c.val = 11 || c.val = 12 || c.val = 13

/-- Python `str.strip()`: drop whitespace from both ends. -/
def pyStrip (s : String) : String :=
  ⟨((s.data.dropWhile isPySpace).reverse.dropWhile isPySpace).reverse⟩

/-- Python `a or b` on strings: `b` when `a` is empty. -/
def pyOr (a b : String) : String := if a = "" then b else a

/-- The `Options` dataclass. -/
structure Options where
  output_dir : Option Path
  inplace : Bool
  overwrite : Bool
  dry_run : Bool
  workers : Int
  keep_artwork : Bool
  prefer_afconvert : Bool
  ffmpeg_path : Option String
  delete_original : Bool
  verify : Bool
  ffmpeg_for_verify : Option String
deriving DecidableEq, Repr

/-- A side effect performed by the code itself: recursive directory creation,
a subprocess invocation, a deletion attempt, a warning on stderr. -/
inductive Effect where
  | mkdirP (p : Path)
  | runP (cmd : List String)
  | unlink (p : Path)
  | warn (msg : String)
deriving DecidableEq, Repr

/-- Result of `subprocess.run(cmd, capture_output=True, text=True)`. -/
structure RunResult where
  returncode : Int
  stdout : String
  stderr : String
deriving DecidableEq, Repr

/-- Observable outcome of the `subprocess.Popen` decode pipeline used by
`compute_pcm_md5`: exit code, captured stderr text, and the MD5 hex digest of
the streamed stdout bytes (the digest of the byte stream is supplied by the
oracle, the hash function itself being external to the program logic). -/
structure PopenRes where
  returncode : Int
  stderrText : String
  stdoutMd5 : String
deriving DecidableEq, Repr

/-- Oracle for the filesystem and subprocess operations of one job. -/
structure Env where
  fsExists : Path → Bool
  mtime : Path → Except PyExc Int
  size : Path → Except PyExc Int
  mkdir : Path → Except PyExc Unit
  run : List String → Except PyExc RunResult
  unlink : Path → Except PyExc Unit
  popen : List String → Except PyExc PopenRes

/-- Oracle for `shutil.which`. -/
structure SysEnv where
  which : String → Option String

/-- A job result tuple `(src, dst, success, message)`. -/
structure JobResult where
  src : Path
  dst : Option Path
  success : Bool
  msg : String
deriving DecidableEq, Repr

/-- A filesystem snapshot for input collection: the existing files and
directories. -/
structure FS where
  files : List Path
  dirs : List Path

def FS.isFile (fs : FS) (p : Path) : Bool := fs.files.contains p

def FS.isDir (fs : FS) (p : Path) : Bool := fs.dirs.contains p

/-- `d` is a strict ancestor of `p`. -/
def strictUnder (d p : Path) : Bool :=
  d.parts.isPrefixOf p.parts && decide (d.parts.length < p.parts.length)

/-- `d.rglob("*")`: every entry strictly below `d`, at any depth. -/
def FS.rglob (fs : FS) (d : Path) : List Path :=
  (fs.files ++ fs.dirs).filter (strictUnder d)

def SUPPORTED_INPUT_EXTS : List String := [".flac"]

def OUTPUT_EXT : String := ".m4a"

/-- `which_ffmpeg`: an explicit path is used only when `shutil.which` accepts
it; note that Python truthiness makes an explicit empty string behave as if no
explicit path were given. -/
def which_ffmpeg (se : SysEnv) (explicit : Option String) : Option String :=
  match explicit with
  | some e =>
    if e ≠ "" then (if (se.which e).isSome then some e else none)
    else se.which "ffmpeg"
  | none => se.which "ffmpeg"

def which_afconvert (se : SysEnv) : Option String := se.which "afconvert"

/-- `detect_converter`: the source's cascade — prefer afconvert when requested
and available; else ffmpeg when available; else afconvert with a warning; else
raise `RuntimeError`. -/
def detect_converter (se : SysEnv) (prefer_afconvert : Bool) (ffmpeg_path : Option String) :
    Except PyExc (String × String) × List Effect :=
  let ff := which_ffmpeg se ffmpeg_path
  let af := which_afconvert se
  match af with
  | some a =>
    if prefer_afconvert then (.ok ("afconvert", a), [])
    else
      match ff with
      | some f => (.ok ("ffmpeg", f), [])
      | none =>
        (.ok ("afconvert", a),
         [.warn "ffmpegが見つかりませんでしたが、afconvertを使用します（メタデータ保持は限定的です）"])
  | none =>
    match ff with
    | some f => (.ok ("ffmpeg", f), [])
    | none => (.error (.runtimeError "ffmpeg または afconvert が見つかりません。インストールしてください。"), [])

/-- `build_ffmpeg_cmd`. -/
def build_ffmpeg_cmd (ffmpeg : String) (src dst : Path) (overwrite keep_artwork : Bool) :
    List String :=
  [ffmpeg] ++ ["-hide_banner", "-loglevel", "error"] ++
  [if overwrite then "-y" else "-n"] ++ ["-i", src.toStr] ++
  (if keep_artwork then
    ["-map", "0:a:0", "-c:a", "alac", "-map", "0:v?", "-c:v", "copy",
     "-disposition:v:0", "attached_pic", "-map_metadata", "0", "-movflags", "use_metadata_tags"]
   else
    ["-map", "0:a:0", "-c:a", "alac", "-map_metadata", "0", "-movflags", "use_metadata_tags"]) ++
  [dst.toStr]

/-- `build_afconvert_cmd` (fixed shape; afconvert has no overwrite flag). -/
def build_afconvert_cmd (afconvert : String) (src dst : Path) (_overwrite : Bool) : List String :=
  [afconvert, "-f", "m4af", "-d", "alac", src.toStr, dst.toStr]

/-- `compute_output_path`: in-place replaces the extension next to the source;
directory mode lands flat in the output directory, or mirrors the path
relative to the input root when one was determined. -/
def compute_output_path (src : Path) (opts : Options) (input_root : Option Path) :
    Except PyExc Path :=
  match with_suffix src OUTPUT_EXT with
  | .error e => .error e
  | .ok srcOut =>
    let out_name := srcOut.name
    if opts.inplace then .ok srcOut
    else
      match opts.output_dir with
      | none => .error .assertionError
      | some od =>
        match input_root with
        | none => .ok (od.join ⟨[out_name]⟩)
        | some root =>
          match relative_to src root with
          | .error e => .error e
          | .ok rel =>
            match with_suffix rel OUTPUT_EXT with
            | .error e => .error e
            | .ok rel2 => .ok (od.join rel2)

/-- `should_skip`: skip when not overwriting and an up-to-date destination
exists; a `FileNotFoundError` from either `stat` means "do not skip"; any
other exception propagates. -/
def should_skip (env : Env) (src dst : Path) (overwrite : Bool) : Except PyExc Bool :=
  if overwrite then .ok false
  else if !env.fsExists dst then .ok false
  else
    match env.mtime dst with
    | .error (.fileNotFound _) => .ok false
    | .error e => .error e
    | .ok dm =>
      match env.mtime src with
      | .error (.fileNotFound _) => .ok false
      | .error e => .error e
      | .ok sm => .ok (decide (sm ≤ dm))

/-- Python string `<`: lexicographic comparison by code point. -/
def lexLtCh : List Char → List Char → Bool
  | [], [] => false
  | [], _ :: _ => true
  | _ :: _, [] => false
  | a :: as, b :: bs => if a < b then true else if a = b then lexLtCh as bs else false

/-- Python `a <= b` on strings, the key order of `sorted`. -/
def strLeB (a b : String) : Bool := !(lexLtCh b.data a.data)

theorem lexLtCh_irrefl : ∀ l : List Char, lexLtCh l l = false
  | [] => rfl
  | _ :: l => by simp [lexLtCh, lexLtCh_irrefl l]

theorem lexLtCh_trichotomy : ∀ a b : List Char, lexLtCh a b = true ∨ a = b ∨ lexLtCh b a = true
  | [], [] => Or.inr (Or.inl rfl)
  | [], _ :: _ => Or.inl rfl
  | _ :: _, [] => Or.inr (Or.inr rfl)
  | a :: as, b :: bs => by
    rcases lt_trichotomy a b with h | h | h
    · exact Or.inl (by simp [lexLtCh, h])
    · subst h
      rcases lexLtCh_trichotomy as bs with h' | h' | h'
      · exact Or.inl (by simp [lexLtCh, h'])
      · exact Or.inr (Or.inl (by rw [h']))
      · exact Or.inr (Or.inr (by simp [lexLtCh, h']))
    · exact Or.inr (Or.inr (by simp [lexLtCh, h]))

theorem lexLtCh_trans : ∀ a b c : List Char,
    lexLtCh a b = true → lexLtCh b c = true → lexLtCh a c = true
  | [], [], _, hab, _ => by simp [lexLtCh] at hab
  | [], _ :: _, [], _, hbc => by simp [lexLtCh] at hbc
  | [], _ :: _, _ :: _, _, _ => rfl
  | _ :: _, [], _, hab, _ => by simp [lexLtCh] at hab
  | _ :: _, _ :: _, [], _, hbc => by simp [lexLtCh] at hbc
  | a :: as, b :: bs, c :: cs, hab, hbc => by
    simp only [lexLtCh] at hab hbc ⊢
    by_cases h1 : a < b
    · by_cases h2 : b < c
      · simp [lt_trans h1 h2]
      · by_cases h3 : b = c
        · subst h3; simp [h1]
        · simp [h2, h3] at hbc
    · by_cases h1' : a = b
      · subst h1'
        by_cases h2 : a < c
        · simp [h2]
        · by_cases h3 : a = c
          · subst h3
            rw [if_neg (lt_irrefl a), if_pos rfl] at hab hbc ⊢
            exact lexLtCh_trans as bs cs hab hbc
          · simp [h2, h3] at hbc
      · simp [h1, h1'] at hab

/-- Ordering used by Python's `sorted` on `PurePosixPath`: comparison of the
rendered path strings (case-sensitive). -/
def pathLeP (a b : Path) : Prop := strLeB a.toStr b.toStr = true

instance : DecidableRel pathLeP := fun a b =>
  inferInstanceAs (Decidable (strLeB a.toStr b.toStr = true))

theorem strLeB_iff {a b : String} : strLeB a b = true ↔ lexLtCh b.data a.data = false := by
  simp [strLeB]

instance : IsTotal Path pathLeP := by
  refine ⟨fun a b => ?_⟩
  simp only [pathLeP, strLeB_iff]
  by_cases h : lexLtCh b.toStr.data a.toStr.data = false
  · exact Or.inl h
  · refine Or.inr ?_
    rw [Bool.not_eq_false] at h
    cases h' : lexLtCh a.toStr.data b.toStr.data
    · rfl
    · exact absurd (lexLtCh_trans _ _ _ h h') (by simp [lexLtCh_irrefl])

instance : IsTrans Path pathLeP := by
  refine ⟨fun a b c hab hbc => ?_⟩
  simp only [pathLeP, strLeB_iff] at hab hbc ⊢
  by_contra h
  rw [Bool.not_eq_false] at h
  rcases lexLtCh_trichotomy a.toStr.data b.toStr.data with h' | h' | h'
  · exact absurd (lexLtCh_trans _ _ _ h h') (by simp [hbc])
  · rw [h'] at h; simp [h] at hbc
  · simp [h'] at hab

/-- Python `sorted` on paths: stable ascending sort by path string. -/
def pySort (l : List Path) : List Path := l.insertionSort pathLeP

/-- A path that is an existing file with the recognized extension
(case-insensitive). -/
def eligibleFile (fs : FS) (p : Path) : Bool :=
  fs.isFile p && SUPPORTED_INPUT_EXTS.contains (lowerStr p.suffix)

/-- `gather_inputs`: direct eligible files, plus eligible files found by
recursive traversal of given directories, sorted at the end.  A path that is
neither gets a warning and is dropped (warnings not tracked here). -/
def gather_inputs (fs : FS) (paths : List Path) : List Path :=
  pySort (paths.foldl (fun files p =>
    if fs.isFile p && SUPPORTED_INPUT_EXTS.contains (lowerStr p.suffix) then files ++ [p]
    else if fs.isDir p then
      files ++ (fs.rglob p).filter
        (fun f => fs.isFile f && SUPPORTED_INPUT_EXTS.contains (lowerStr f.suffix))
    else files) [])

/-- The argument vector of the PCM-decode pipeline in `compute_pcm_md5`. -/
def pcm_cmd (ffmpeg : String) (path : Path) : List String :=
  [ffmpeg, "-v", "error", "-i", path.toStr, "-map", "0:a:0", "-f", "s32le", "-"]

/-- `compute_pcm_md5`: decode to raw s32le PCM through the oracle pipeline and
return the digest of the byte stream; a nonzero decoder exit raises
`RuntimeError` carrying the stripped stderr text (or a fixed message). -/
def compute_pcm_md5 (env : Env) (ffmpeg : String) (path : Path) :
    Except PyExc String × List Effect :=
  let cmd := pcm_cmd ffmpeg path
  match env.popen cmd with
  | .error e => (.error e, [.runP cmd])
  | .ok res =>
    if res.returncode ≠ 0 then
      (.error (.runtimeError (pyOr (pyStrip res.stderrText) "PCMデコードに失敗")), [.runP cmd])
    else (.ok res.stdoutMd5, [.runP cmd])

/-- `ensure_parent_dir`: `p.parent.mkdir(parents=True, exist_ok=True)`. -/
def ensure_parent_dir (env : Env) (p : Path) : Except PyExc Unit := env.mkdir p.parent

/-- Lines 198-210 of `convert_one`: invoke the backend inside
`try/except`.  A `FileNotFoundError` anywhere in the block (missing
executable, or a vanished destination during the zero-byte check) yields the
"command not found" failure; any other exception yields its message; a nonzero
exit deletes a zero-byte leftover destination (best-effort) and fails with the
stripped stderr (or a fixed message).  `some r` is an early failure return. -/
def run_phase (env : Env) (src dst : Path) (cmd : List String) :
    Option JobResult × List Effect :=
  match env.run cmd with
  | .error (.fileNotFound _) =>
    (some ⟨src, some dst, false, "コマンドが見つかりません: " ++ cmd.headD ""⟩, [.runP cmd])
  | .error e => (some ⟨src, some dst, false, e.str⟩, [.runP cmd])
  | .ok proc =>
    if proc.returncode ≠ 0 then
      if env.fsExists dst then
        match env.size dst with
        | .error (.fileNotFound _) =>
          (some ⟨src, some dst, false, "コマンドが見つかりません: " ++ cmd.headD ""⟩, [.runP cmd])
        | .error e => (some ⟨src, some dst, false, e.str⟩, [.runP cmd])
        | .ok sz =>
          if sz = 0 then
            (some ⟨src, some dst, false, pyOr (pyStrip proc.stderr) "変換に失敗"⟩,
             [.runP cmd, .unlink dst])
          else (some ⟨src, some dst, false, pyOr (pyStrip proc.stderr) "変換に失敗"⟩, [.runP cmd])
      else (some ⟨src, some dst, false, pyOr (pyStrip proc.stderr) "変換に失敗"⟩, [.runP cmd])
    else (none, [.runP cmd])

/-- Lines 212-229 of `convert_one`: optional verification.  With no resolved
verify encoder: warn and continue.  A digest error fails the job; differing
digests delete the destination (best-effort, only when it exists) and fail.
`some r` is an early failure return. -/
def verify_phase (env : Env) (src dst : Path) (opts : Options) :
    Option JobResult × List Effect :=
  if opts.verify then
    match opts.ffmpeg_for_verify with
    | none => (none, [.warn "--verify 指定ですが ffmpeg が見つからないため検証をスキップします"])
    | some ff =>
      match compute_pcm_md5 env ff src with
      | (.error e, t1) => (some ⟨src, some dst, false, "verify失敗: " ++ e.str⟩, t1)
      | (.ok md5_src, t1) =>
        match compute_pcm_md5 env ff dst with
        | (.error e, t2) => (some ⟨src, some dst, false, "verify失敗: " ++ e.str⟩, t1 ++ t2)
        | (.ok md5_dst, t2) =>
          if md5_src ≠ md5_dst then
            if env.fsExists dst then
              (some ⟨src, some dst, false, "verify不一致: PCM MD5が一致しません"⟩,
               t1 ++ t2 ++ [.unlink dst])
            else (some ⟨src, some dst, false, "verify不一致: PCM MD5が一致しません"⟩, t1 ++ t2)
          else (none, t1 ++ t2)
  else (none, [])

/-- Lines 231-238 of `convert_one`: optional source deletion (a failure only
warns), then the terminal "ok" result. -/
def delete_phase (env : Env) (src dst : Path) (opts : Options) : JobResult × List Effect :=
  if opts.delete_original then
    match env.unlink src with
    | .error e =>
      (⟨src, some dst, true, "ok"⟩,
       [.unlink src, .warn ("元ファイル削除に失敗: " ++ src.toStr ++ " (" ++ e.str ++ ")")])
    | .ok _ => (⟨src, some dst, true, "ok"⟩, [.unlink src])
  else (⟨src, some dst, true, "ok"⟩, [])

/-- The tail of `convert_one` after the command is built: run, verify,
delete-original, accumulating the effect trace onto `t0`. -/
def finish_job (env : Env) (src dst : Path) (opts : Options) (cmd : List String)
    (t0 : List Effect) : Except PyExc JobResult × List Effect :=
  match run_phase env src dst cmd with
  | (some r, t1) => (.ok r, t0 ++ t1)
  | (none, t1) =>
    match verify_phase env src dst opts with
    | (some r, t2) => (.ok r, t0 ++ t1 ++ t2)
    | (none, t2) =>
      let rt := delete_phase env src dst opts
      (.ok rt.1, t0 ++ t1 ++ t2 ++ rt.2)

/-- `convert_one`: the per-file job.  Exceptions escaping the Python function
(from `compute_output_path`, from a non-`FileNotFoundError` stat in
`should_skip`, or from `ensure_parent_dir`) appear as `.error`; everything the
Python code catches is folded into an `.ok` job result. -/
def convert_one (env : Env) (src : Path) (opts : Options) (detected : String × String)
    (input_root : Option Path) : Except PyExc JobResult × List Effect :=
  let kind := detected.1
  let bin_path := detected.2
  match compute_output_path src opts input_root with
  | .error e => (.error e, [])
  | .ok dst =>
    match should_skip env src dst opts.overwrite with
    | .error e => (.error e, [])
    | .ok true => (.ok ⟨src, some dst, true, "skip: 既に最新の出力が存在"⟩, [])
    | .ok false =>
      if opts.dry_run then (.ok ⟨src, some dst, true, "dry-run: 変換予定"⟩, [])
      else
        match ensure_parent_dir env dst with
        | .error e => (.error e, [.mkdirP dst.parent])
        | .ok _ =>
          if kind = "ffmpeg" then
            finish_job env src dst opts
              (build_ffmpeg_cmd bin_path src dst opts.overwrite opts.keep_artwork)
              [.mkdirP dst.parent]
          else
            if opts.overwrite && env.fsExists dst then
              match env.unlink dst with
              | .error e =>
                (.ok ⟨src, some dst, false, "出力の削除に失敗: " ++ e.str⟩,
                 [.mkdirP dst.parent, .unlink dst])
              | .ok _ =>
                finish_job env src dst opts
                  (build_afconvert_cmd bin_path src dst opts.overwrite)
                  [.mkdirP dst.parent, .unlink dst]
            else
              finish_job env src dst opts
                (build_afconvert_cmd bin_path src dst opts.overwrite)
                [.mkdirP dst.parent]

/-- The effective input list: the current directory when none were given. -/
def main_inputs (cwd : Path) (args_inputs : List Path) : List Path :=
  if args_inputs.isEmpty then [cwd] else args_inputs

/-- Post-parse command-line arguments (argparse itself is a thin wrapper and
out of scope; `inputs` may be empty, standing for the default). -/
structure Args where
  inputs : List Path
  output : Option Path
  inplace : Bool
  workers : Int
  dry_run : Bool
  overwrite : Bool
  keep_artwork : Bool
  prefer_afconvert : Bool
  ffmpeg_path : Option String
  delete_original : Bool
  verify : Bool

/-- The output directory after applying the `./alac` default. -/
def main_output_dir (cwd : Path) (args : Args) : Option Path :=
  if !args.inplace && args.output.isNone then some (Path.join cwd ⟨["alac"]⟩) else args.output

/-- The `Options` record built by `main`. -/
def main_opts (se : SysEnv) (cwd : Path) (args : Args) : Options :=
  { output_dir := main_output_dir cwd args
    inplace := args.inplace
    overwrite := args.overwrite
    dry_run := args.dry_run
    workers := max 1 args.workers
    keep_artwork := args.keep_artwork
    prefer_afconvert := args.prefer_afconvert
    ffmpeg_path := args.ffmpeg_path
    delete_original := args.delete_original
    verify := args.verify
    ffmpeg_for_verify := which_ffmpeg se args.ffmpeg_path }

/-- The input root: the resolved form of the sole input when it is a single
directory. -/
def main_input_root (fs : FS) (cwd : Path) (inputs : List Path) : Option Path :=
  match inputs with
  | [d] => if fs.isDir d then some (resolve cwd d) else none
  | _ => none

/-- The dispatcher: run every job.  Concurrency only permutes the collected
results and the report re-sorts them; the failure count below is
permutation-invariant, so jobs are modelled in input order.  An exception
escaping a job propagates (`fut.result()` re-raises it in `main`). -/
def run_jobs (env : Env) (files : List Path) (opts : Options) (detected : String × String)
    (input_root : Option Path) : Except PyExc (List JobResult) :=
  files.mapM (fun f => (convert_one env f opts detected input_root).1)

/-- Python `str.startswith`. -/
def pyStartsWith (s pre : String) : Bool := pre.data.isPrefixOf s.data

/-- The reporter's FAIL count: a result is FAIL when it is not successful and
its message starts with neither `"skip"` nor `"dry-run"`. -/
def countFailed (results : List JobResult) : Nat :=
  results.countP
    (fun r => !(pyStartsWith r.msg "skip") && !(pyStartsWith r.msg "dry-run") && !r.success)

/-- `main` after argument parsing: conflicting flags → 2, no encoder → 127,
nothing to do → 0, otherwise 0/1 from the aggregated report. -/
def main (se : SysEnv) (fs : FS) (env : Env) (cwd : Path) (args : Args) : Except PyExc Int :=
  let inputs := main_inputs cwd args.inputs
  let output_dir := main_output_dir cwd args
  if args.inplace && output_dir.isSome then .ok 2
  else
    let opts := main_opts se cwd args
    match (detect_converter se opts.prefer_afconvert opts.ffmpeg_path).1 with
    | .error _ => .ok 127
    | .ok detected =>
      let files := gather_inputs fs inputs
      if files.isEmpty then .ok 0
      else
        match run_jobs env files opts detected (main_input_root fs cwd inputs) with
        | .error e => .error e
        | .ok results => .ok (if countFailed results = 0 then 0 else 1)

/-! ### Structural lemmas about the job phases -/

theorem run_phase_some (env : Env) (src dst : Path) (cmd : List String) (r : JobResult)
    (t : List Effect) (h : run_phase env src dst cmd = (some r, t)) :
    r.src = src ∧ r.dst = some dst ∧ r.success = false := by
  unfold run_phase at h
  repeat any_goals split at h
  all_goals rw [Prod.mk.injEq] at h
  all_goals obtain ⟨h1, h2⟩ := h
  all_goals first
    | (injection h1 with h1'; subst h1'; exact ⟨rfl, rfl, rfl⟩)
    | injection h1

theorem verify_phase_some (env : Env) (src dst : Path) (opts : Options) (r : JobResult)
    (t : List Effect) (h : verify_phase env src dst opts = (some r, t)) :
    r.src = src ∧ r.dst = some dst ∧ r.success = false := by
  unfold verify_phase at h
  repeat any_goals split at h
  all_goals rw [Prod.mk.injEq] at h
  all_goals obtain ⟨h1, h2⟩ := h
  all_goals first
    | (injection h1 with h1'; subst h1'; exact ⟨rfl, rfl, rfl⟩)
    | injection h1

theorem delete_phase_fst (env : Env) (src dst : Path) (opts : Options) :
    (delete_phase env src dst opts).1 = ⟨src, some dst, true, "ok"⟩ := by
  unfold delete_phase
  repeat any_goals split
  all_goals rfl

theorem run_phase_trace (env : Env) (src dst : Path) (cmd : List String) :
    (run_phase env src dst cmd).2 = [Effect.runP cmd] ∨
    (run_phase env src dst cmd).2 = [Effect.runP cmd, Effect.unlink dst] := by
  unfold run_phase
  repeat any_goals split
  all_goals simp

theorem compute_pcm_md5_trace (env : Env) (ffmpeg : String) (path : Path) :
    (compute_pcm_md5 env ffmpeg path).2 = [Effect.runP (pcm_cmd ffmpeg path)] := by
  cases h : env.popen (pcm_cmd ffmpeg path) with
  | error e => simp [compute_pcm_md5, h]
  | ok res => by_cases hrc : res.returncode = 0 <;> simp [compute_pcm_md5, h, hrc]

theorem verify_phase_trace (env : Env) (src dst : Path) (opts : Options) :
    ∀ e ∈ (verify_phase env src dst opts).2,
      (∃ c, e = Effect.runP c) ∨ (∃ m, e = Effect.warn m) ∨ e = Effect.unlink dst := by
  intro e he
  unfold verify_phase at he
  split at he
  · split at he
    · simp only [List.mem_singleton] at he
      exact Or.inr (Or.inl ⟨_, he⟩)
    · rename_i ff heff
      split at he
      · rename_i x e' t1 heq
        have h1 := compute_pcm_md5_trace env ff src
        rw [heq] at h1
        simp only at h1
        subst h1
        simp only [List.mem_singleton] at he
        exact Or.inl ⟨_, he⟩
      · rename_i x m1 t1 heq1
        have h1 := compute_pcm_md5_trace env ff src
        rw [heq1] at h1
        simp only at h1
        subst h1
        split at he
        · rename_i y e' t2 heq2
          have h2 := compute_pcm_md5_trace env ff dst
          rw [heq2] at h2
          simp only at h2
          subst h2
          simp only [List.mem_append, List.mem_singleton] at he
          rcases he with he | he <;> exact Or.inl ⟨_, he⟩
        · rename_i y m2 t2 heq2
          have h2 := compute_pcm_md5_trace env ff dst
          rw [heq2] at h2
          simp only at h2
          subst h2
          split at he
          · split at he
            · simp only [List.mem_append, List.mem_singleton] at he
              rcases he with (he | he) | he
              · exact Or.inl ⟨_, he⟩
              · exact Or.inl ⟨_, he⟩
              · exact Or.inr (Or.inr he)
            · simp only [List.mem_append, List.mem_singleton] at he
              rcases he with he | he <;> exact Or.inl ⟨_, he⟩
          · simp only [List.mem_append, List.mem_singleton] at he
            rcases he with he | he <;> exact Or.inl ⟨_, he⟩
  · simp at he

theorem delete_phase_none (env : Env) (src dst : Path) (opts : Options)
    (h : opts.delete_original = false) :
    delete_phase env src dst opts = (⟨src, some dst, true, "ok"⟩, []) := by
  simp [delete_phase, h]

theorem delete_phase_trace (env : Env) (src dst : Path) (opts : Options) (p : Path)
    (he : Effect.unlink p ∈ (delete_phase env src dst opts).2) :
    p = src ∧ opts.delete_original = true := by
  unfold delete_phase at he
  split at he
  · rename_i hdel
    split at he
    · simp only [List.mem_cons, List.not_mem_nil, or_false] at he
      rcases he with he | he
      · injection he with h
        exact ⟨h, hdel⟩
      · exact absurd he (by simp)
    · simp only [List.mem_singleton] at he
      exact ⟨by injection he, hdel⟩
  · simp at he

theorem delete_phase_mem (env : Env) (src dst : Path) (opts : Options) :
    ∀ e ∈ (delete_phase env src dst opts).2,
      (e = Effect.unlink src ∧ opts.delete_original = true) ∨ ∃ m, e = Effect.warn m := by
  intro e he
  unfold delete_phase at he
  split at he
  · rename_i hdel
    split at he
    · simp only [List.mem_cons, List.not_mem_nil, or_false] at he
      rcases he with rfl | rfl
      · exact Or.inl ⟨rfl, hdel⟩
      · exact Or.inr ⟨_, rfl⟩
    · simp only [List.mem_singleton] at he
      subst he
      exact Or.inl ⟨rfl, hdel⟩
  · simp at he

theorem finish_job_ok (env : Env) (src dst : Path) (opts : Options) (cmd : List String)
    (t0 : List Effect) :
    ∃ r, (finish_job env src dst opts cmd t0).1 = .ok r ∧ r.src = src ∧ r.dst = some dst ∧
      (r.success = true → r.msg = "ok") := by
  unfold finish_job
  split
  · rename_i r1 t1 h1
    obtain ⟨hs, hd, hsuc⟩ := run_phase_some env src dst cmd r1 t1 h1
    exact ⟨r1, rfl, hs, hd, by simp [hsuc]⟩
  · rename_i t1 h1
    split
    · rename_i r2 t2 h2
      obtain ⟨hs, hd, hsuc⟩ := verify_phase_some env src dst opts r2 t2 h2
      exact ⟨r2, rfl, hs, hd, by simp [hsuc]⟩
    · refine ⟨(delete_phase env src dst opts).1, rfl, ?_⟩
      rw [delete_phase_fst]
      exact ⟨rfl, rfl, fun _ => rfl⟩

theorem finish_job_mem (env : Env) (src dst : Path) (opts : Options) (cmd : List String)
    (t0 : List Effect) :
    ∀ e ∈ (finish_job env src dst opts cmd t0).2,
      e ∈ t0 ∨ (∃ c, e = Effect.runP c) ∨ (∃ m, e = Effect.warn m) ∨ e = Effect.unlink dst ∨
        (e = Effect.unlink src ∧ opts.delete_original = true ∧
          (finish_job env src dst opts cmd t0).1 = .ok ⟨src, some dst, true, "ok"⟩) := by
  intro e he
  unfold finish_job at he ⊢
  split at he
  · rename_i r1 t1 h1
    simp only [List.mem_append] at he
    rcases he with he | he
    · exact Or.inl he
    · have ht := run_phase_trace env src dst cmd
      rw [h1] at ht
      simp only at ht
      rcases ht with ht | ht <;> rw [ht] at he <;>
        simp only [List.mem_cons, List.mem_singleton, List.not_mem_nil, or_false] at he
      · exact Or.inr (Or.inl ⟨_, he⟩)
      · rcases he with rfl | rfl
        · exact Or.inr (Or.inl ⟨_, rfl⟩)
        · exact Or.inr (Or.inr (Or.inr (Or.inl rfl)))
  · rename_i t1 h1
    split at he
    · rename_i r2 t2 h2
      simp only [List.mem_append] at he
      rcases he with (he | he) | he
      · exact Or.inl he
      · have ht := run_phase_trace env src dst cmd
        rw [h1] at ht
        simp only at ht
        rcases ht with ht | ht <;> rw [ht] at he <;>
          simp only [List.mem_cons, List.mem_singleton, List.not_mem_nil, or_false] at he
        · exact Or.inr (Or.inl ⟨_, he⟩)
        · rcases he with rfl | rfl
          · exact Or.inr (Or.inl ⟨_, rfl⟩)
          · exact Or.inr (Or.inr (Or.inr (Or.inl rfl)))
      · have ht := verify_phase_trace env src dst opts e
        rw [h2] at ht
        rcases ht he with h | h | h
        · exact Or.inr (Or.inl h)
        · exact Or.inr (Or.inr (Or.inl h))
        · exact Or.inr (Or.inr (Or.inr (Or.inl h)))
    · rename_i t2 h2
      simp only [List.mem_append] at he
      rcases he with ((he | he) | he) | he
      · exact Or.inl he
      · have ht := run_phase_trace env src dst cmd
        rw [h1] at ht
        simp only at ht
        rcases ht with ht | ht <;> rw [ht] at he <;>
          simp only [List.mem_cons, List.mem_singleton, List.not_mem_nil, or_false] at he
        · exact Or.inr (Or.inl ⟨_, he⟩)
        · rcases he with rfl | rfl
          · exact Or.inr (Or.inl ⟨_, rfl⟩)
          · exact Or.inr (Or.inr (Or.inr (Or.inl rfl)))
      · have ht := verify_phase_trace env src dst opts e
        rw [h2] at ht
        rcases ht he with h | h | h
        · exact Or.inr (Or.inl h)
        · exact Or.inr (Or.inr (Or.inl h))
        · exact Or.inr (Or.inr (Or.inr (Or.inl h)))
      · rcases delete_phase_mem env src dst opts e he with ⟨rfl, hdel⟩ | ⟨m, rfl⟩
        · exact Or.inr (Or.inr (Or.inr (Or.inr ⟨rfl, hdel, by dsimp only; rw [delete_phase_fst]⟩)))
        · exact Or.inr (Or.inr (Or.inl ⟨_, rfl⟩))

theorem convert_one_mem (env : Env) (src : Path) (opts : Options) (detected : String × String)
    (input_root : Option Path) (dst : Path) (r : Except PyExc JobResult) (t : List Effect)
    (hpath : compute_output_path src opts input_root = .ok dst)
    (h : convert_one env src opts detected input_root = (r, t)) :
    ∀ e ∈ t,
      e = Effect.mkdirP dst.parent ∨ (∃ c, e = Effect.runP c) ∨ (∃ m, e = Effect.warn m) ∨
      e = Effect.unlink dst ∨
      (e = Effect.unlink src ∧ opts.delete_original = true ∧
        r = .ok ⟨src, some dst, true, "ok"⟩) := by
  intro e he
  unfold convert_one at h
  rw [hpath] at h
  dsimp only at h
  split at h
  · rw [Prod.mk.injEq] at h
    obtain ⟨hr, ht⟩ := h
    subst ht
    simp at he
  · rw [Prod.mk.injEq] at h
    obtain ⟨hr, ht⟩ := h
    subst ht
    simp at he
  · split at h
    · rw [Prod.mk.injEq] at h
      obtain ⟨hr, ht⟩ := h
      subst ht
      simp at he
    · split at h
      · rw [Prod.mk.injEq] at h
        obtain ⟨hr, ht⟩ := h
        subst ht
        simp only [List.mem_singleton] at he
        exact Or.inl he
      · split at h
        · have hm := finish_job_mem env src dst opts _ _ e (by rw [h]; exact he)
          rw [h] at hm
          simp only [List.mem_singleton] at hm
          rcases hm with hm | hm | hm | hm | ⟨h1, h2, h3⟩
          · exact Or.inl hm
          · exact Or.inr (Or.inl hm)
          · exact Or.inr (Or.inr (Or.inl hm))
          · exact Or.inr (Or.inr (Or.inr (Or.inl hm)))
          · exact Or.inr (Or.inr (Or.inr (Or.inr ⟨h1, h2, by simpa using h3⟩)))
        · split at h
          · split at h
            · rw [Prod.mk.injEq] at h
              obtain ⟨hr, ht⟩ := h
              subst ht
              simp only [List.mem_cons, List.mem_singleton, List.not_mem_nil, or_false] at he
              rcases he with rfl | rfl
              · exact Or.inl rfl
              · exact Or.inr (Or.inr (Or.inr (Or.inl rfl)))
            · have hm := finish_job_mem env src dst opts _ _ e (by rw [h]; exact he)
              rw [h] at hm
              simp only [List.mem_cons, List.mem_singleton, List.not_mem_nil, or_false] at hm
              rcases hm with (rfl | rfl) | hm | hm | hm | ⟨h1, h2, h3⟩
              · exact Or.inl rfl
              · exact Or.inr (Or.inr (Or.inr (Or.inl rfl)))
              · exact Or.inr (Or.inl hm)
              · exact Or.inr (Or.inr (Or.inl hm))
              · exact Or.inr (Or.inr (Or.inr (Or.inl hm)))
              · exact Or.inr (Or.inr (Or.inr (Or.inr ⟨h1, h2, by simpa using h3⟩)))
          · have hm := finish_job_mem env src dst opts _ _ e (by rw [h]; exact he)
            rw [h] at hm
            simp only [List.mem_singleton] at hm
            rcases hm with hm | hm | hm | hm | ⟨h1, h2, h3⟩
            · exact Or.inl hm
            · exact Or.inr (Or.inl hm)
            · exact Or.inr (Or.inr (Or.inl hm))
            · exact Or.inr (Or.inr (Or.inr (Or.inl hm)))
            · exact Or.inr (Or.inr (Or.inr (Or.inr ⟨h1, h2, by simpa using h3⟩)))

/-! ### The planned destination of an eligible source differs from the source -/

theorem lowerStr_data_length (s : String) : (lowerStr s).data.length = s.data.length := by
  simp [lowerStr]

theorem nameSuffix_spec (n : String) (h : nameSuffix n ≠ "") :
    ∃ i, 0 < i ∧ i < n.data.length - 1 ∧ nameSuffix n = ⟨n.data.drop i⟩ := by
  cases hr : rfindDot n.data with
  | none =>
    refine absurd ?_ h
    simp only [nameSuffix, hr]
  | some i =>
    have hn : nameSuffix n = if 0 < i ∧ i < n.data.length - 1 then ⟨n.data.drop i⟩ else "" := by
      simp only [nameSuffix, hr]
    by_cases hc : 0 < i ∧ i < n.data.length - 1
    · rw [hn, if_pos hc]
      exact ⟨i, hc.1, hc.2, rfl⟩
    · rw [hn, if_neg hc] at h
      simp at h

theorem flac_name_facts (n : String) (h : lowerStr (nameSuffix n) = ".flac") :
    (nameSuffix n).data.length = 5 ∧ 6 ≤ n.data.length ∧ nameSuffix n ≠ "" ∧ n ≠ "" := by
  have h5 : (nameSuffix n).data.length = 5 := by
    have hc := congrArg (fun s : String => s.data.length) h
    simp only at hc
    rw [lowerStr_data_length] at hc
    exact hc
  have hsufne : nameSuffix n ≠ "" := by
    intro h0
    rw [h0] at h5
    simp at h5
  obtain ⟨i, hi0, hi1, heq⟩ := nameSuffix_spec n hsufne
  have hlen : (nameSuffix n).data.length = n.data.length - i := by
    rw [heq]
    exact List.length_drop i n.data
  have h6 : 6 ≤ n.data.length := by omega
  exact ⟨h5, h6, hsufne, by intro h0; rw [h0] at h6; simp at h6⟩

theorem withSuffixName_length (n : String) (h : lowerStr (nameSuffix n) = ".flac") :
    (withSuffixName n OUTPUT_EXT).data.length = n.data.length - 1 := by
  obtain ⟨h5, h6, hsufne, _⟩ := flac_name_facts n h
  unfold withSuffixName
  rw [if_neg hsufne]
  show (n.data.take (n.data.length - (nameSuffix n).data.length) ++ OUTPUT_EXT.data).length = _
  rw [List.length_append, List.length_take, h5]
  have h4 : OUTPUT_EXT.data.length = 4 := rfl
  rw [h4]
  omega

theorem path_name_getLast (p : Path) (h : p.name ≠ "") :
    p.parts.getLast? = some p.name := by
  cases hl : p.parts.getLast? with
  | none =>
    refine absurd ?_ h
    unfold Path.name
    rw [hl]
  | some l =>
    have hn : p.name = if l = "/" then "" else l := by
      unfold Path.name
      rw [hl]
    by_cases hsl : l = "/"
    · rw [hn, if_pos hsl] at h
      simp at h
    · rw [hn, if_neg hsl]

theorem name_concat (l : List String) (a : String) (ha : a ≠ "/") :
    Path.name ⟨l ++ [a]⟩ = a := by
  unfold Path.name
  show (match (l ++ [a]).getLast? with
    | none => ""
    | some x => if x = "/" then "" else x) = a
  rw [List.getLast?_concat]
  simp [ha]

theorem getLast?_concat_getLast (l₁ l₂ : List String) (a : String) :
    (l₁ ++ (l₂ ++ [a])).getLast? = some a := by
  rw [List.getLast?_append, List.getLast?_concat]
  rfl

/-- An eligible `.flac` source is always mapped to a destination with a
different final component, hence a different path. -/
theorem dst_ne_src (src : Path) (opts : Options) (input_root : Option Path) (dst : Path)
    (hflac : lowerStr src.suffix = ".flac")
    (hpath : compute_output_path src opts input_root = .ok dst) : dst ≠ src := by
  obtain ⟨h5, hlen, hsufne, hnne⟩ := flac_name_facts src.name hflac
  have hlen' : (withSuffixName src.name OUTPUT_EXT).data.length = src.name.data.length - 1 :=
    withSuffixName_length src.name hflac
  have hne' : withSuffixName src.name OUTPUT_EXT ≠ src.name := by
    intro h
    rw [h] at hlen'
    omega
  have hslash : withSuffixName src.name OUTPUT_EXT ≠ "/" := by
    intro h
    rw [h] at hlen'
    have h1 : ("/" : String).data.length = 1 := rfl
    omega
  have hnne' : src.name ≠ "" := hnne
  have hgl : src.parts.getLast? = some src.name := path_name_getLast src hnne'
  have hws : with_suffix src OUTPUT_EXT =
      .ok ⟨src.parts.dropLast ++ [withSuffixName src.name OUTPUT_EXT]⟩ := by
    unfold with_suffix
    rw [if_neg hnne']
  unfold compute_output_path at hpath
  rw [hws] at hpath
  dsimp only at hpath
  split at hpath
  · -- in-place mode
    injection hpath with hd
    subst hd
    intro heq
    have hc := congrArg (fun p : Path => p.parts.getLast?) heq
    simp only at hc
    rw [List.getLast?_concat, hgl] at hc
    injection hc with hc'
    exact hne' hc'
  · split at hpath
    · exact absurd hpath (by simp)
    · rename_i od
      split at hpath
      · -- flat directory mode
        rw [name_concat _ _ hslash] at hpath
        unfold Path.join at hpath
        rw [if_neg (by simp [hslash])] at hpath
        injection hpath with hd
        subst hd
        intro heq
        have hc := congrArg (fun p : Path => p.parts.getLast?) heq
        simp only at hc
        rw [List.getLast?_concat, hgl] at hc
        injection hc with hc'
        exact hne' hc'
      · -- mirror mode
        rename_i root
        split at hpath
        · exact absurd hpath (by simp)
        · rename_i rel hrel
          split at hpath
          · exact absurd hpath (by simp)
          · rename_i rel2 hws2
            unfold relative_to at hrel
            split at hrel
            · simp at hrel
            · split at hrel
              · injection hrel with hrelv
                subst hrelv
                unfold with_suffix at hws2
                split at hws2
                · simp at hws2
                · rename_i hrelname
                  injection hws2 with hrel2
                  have hreln : (Path.mk (src.parts.drop root.parts.length)).name ≠ "" :=
                    hrelname
                  have hrgl := path_name_getLast _ hreln
                  have hdropne : src.parts.drop root.parts.length ≠ [] := by
                    intro h0
                    rw [show (Path.mk (src.parts.drop root.parts.length)).parts =
                      src.parts.drop root.parts.length from rfl, h0] at hrgl
                    simp at hrgl
                  have hsame : (Path.mk (src.parts.drop root.parts.length)).name = src.name := by
                    have h1 : (src.parts.drop root.parts.length).getLast? =
                        src.parts.getLast? := by
                      conv_rhs => rw [← List.take_append_drop root.parts.length src.parts]
                      rw [List.getLast?_append]
                      cases hx : (src.parts.drop root.parts.length).getLast? with
                      | none => exact absurd (List.getLast?_eq_none_iff.mp hx) hdropne
                      | some x => rfl
                    have h2 := hrgl
                    rw [show (Path.mk (src.parts.drop root.parts.length)).parts =
                      src.parts.drop root.parts.length from rfl, h1, hgl] at h2
                    injection h2 with h2'
                    exact h2'.symm
                  rw [hsame] at hrel2
                  subst hrel2
                  injection hpath with hd
                  subst hd
                  unfold Path.join
                  split
                  · intro heq
                    have hc := congrArg (fun p : Path => p.parts.getLast?) heq
                    simp only at hc
                    rw [List.getLast?_concat, hgl] at hc
                    injection hc with hc'
                    exact hne' hc'
                  · intro heq
                    have hc := congrArg (fun p : Path => p.parts.getLast?) heq
                    simp only at hc
                    rw [getLast?_concat_getLast, hgl] at hc
                    injection hc with hc'
                    exact hne' hc'
              · simp at hrel

/-! ### Concrete instances used by witnesses and counterexamples -/

def srcW : Path := ⟨["a.flac"]⟩

def dstW : Path := ⟨["a.m4a"]⟩

/-- In-place options, everything else off. -/
def optsInplaceW : Options :=
  { output_dir := none, inplace := true, overwrite := false, dry_run := false, workers := 1,
    keep_artwork := true, prefer_afconvert := false, ffmpeg_path := none,
    delete_original := false, verify := false, ffmpeg_for_verify := none }

/-- A benign oracle: nothing exists, every operation succeeds. -/
def envNeutral : Env :=
  { fsExists := fun _ => false
    mtime := fun _ => .error (.fileNotFound "")
    size := fun _ => .ok 1
    mkdir := fun _ => .ok ()
    run := fun _ => .ok ⟨0, "", ""⟩
    unlink := fun _ => .ok ()
    popen := fun _ => .ok ⟨0, "", "d41d8cd9"⟩ }

/-- An up-to-date destination: it exists and is newer than the source. -/
def envUpToDate : Env :=
  { envNeutral with
    fsExists := fun _ => true
    mtime := fun p => if p = dstW then .ok 10 else .ok 5 }

/-- A destination that vanishes between the existence check and the stat. -/
def envVanish : Env :=
  { envNeutral with
    fsExists := fun _ => true
    mtime := fun p => if p = dstW then .error (.fileNotFound "gone") else .ok 5 }

/-! ### C4 -/

/-- C4 (confirmed): when overwrite is false, the destination exists, and its
modification time is at least the source's, `convert_one` terminates as the
successful SKIP result with an empty effect trace — in particular no
subprocess is invoked; and when the destination's stat raises
`FileNotFoundError` mid-check (it vanished), `should_skip` answers false, so
the destination is treated as absent and the job is not skipped. -/
theorem C4_skip_invariant (env : Env) (src : Path) (opts : Options)
    (detected : String × String) (input_root : Option Path) (dst : Path) (dm sm : Int)
    (m : String)
    (hov : opts.overwrite = false)
    (hpath : compute_output_path src opts input_root = .ok dst) :
    (env.fsExists dst = true → env.mtime dst = .ok dm → env.mtime src = .ok sm → sm ≤ dm →
      convert_one env src opts detected input_root =
        (.ok ⟨src, some dst, true, "skip: 既に最新の出力が存在"⟩, [])) ∧
    (env.mtime dst = .error (.fileNotFound m) →
      should_skip env src dst opts.overwrite = .ok false) := by
  constructor
  · intro hex hdm hsm hle
    have hsk : should_skip env src dst opts.overwrite = .ok true := by
      simp [should_skip, hov, hex, hdm, hsm, hle]
    simp [convert_one, hpath, hsk]
  · intro hdm
    by_cases hex : env.fsExists dst = true
    · simp [should_skip, hov, hex, hdm]
    · simp [should_skip, hov, hex]

/-- C4 witness: a concrete up-to-date destination is skipped with no effects,
and a concrete vanished destination is not skipped. -/
theorem C4_witness :
    convert_one envUpToDate srcW optsInplaceW ("ffmpeg", "/usr/bin/ffmpeg") none =
      (.ok ⟨srcW, some dstW, true, "skip: 既に最新の出力が存在"⟩, []) ∧
    should_skip envVanish srcW dstW optsInplaceW.overwrite = .ok false :=
  ⟨(C4_skip_invariant envUpToDate srcW optsInplaceW ("ffmpeg", "/usr/bin/ffmpeg") none dstW
      10 5 "gone" rfl (by decide)).1 rfl (by decide) (by decide) (by decide),
   (C4_skip_invariant envVanish srcW optsInplaceW ("ffmpeg", "/usr/bin/ffmpeg") none dstW
      10 5 "gone" rfl (by decide)).2 (by decide)⟩

/-! ### C5 -/

/-- C5 (confirmed): a non-skipped job run with dry-run set returns the
successful DRY result with an empty effect trace — no destination file, no
parent directory, no subprocess, no deletion — regardless of the remaining
option flags. -/
theorem C5_dry_run_invariant (env : Env) (src : Path) (opts : Options)
    (detected : String × String) (input_root : Option Path) (dst : Path)
    (hpath : compute_output_path src opts input_root = .ok dst)
    (hskip : should_skip env src dst opts.overwrite = .ok false)
    (hdry : opts.dry_run = true) :
    convert_one env src opts detected input_root =
      (.ok ⟨src, some dst, true, "dry-run: 変換予定"⟩, []) := by
  simp [convert_one, hpath, hskip, hdry]

def optsDryW : Options := { optsInplaceW with dry_run := true }

/-- C5 witness: a concrete dry run produces the DRY result and no effects. -/
theorem C5_witness :
    convert_one envNeutral srcW optsDryW ("afconvert", "/usr/bin/afconvert") none =
      (.ok ⟨srcW, some dstW, true, "dry-run: 変換予定"⟩, []) :=
  C5_dry_run_invariant envNeutral srcW optsDryW ("afconvert", "/usr/bin/afconvert") none dstW
    (by decide) (by decide) rfl

/-! ### C10 -/

/-- C10 (confirmed): with delete-original false, every deletion `convert_one`
attempts targets the destination, and every directory creation targets the
destination's parent.  These are the only mutating filesystem operations the
job performs itself (everything else is the encoder subprocess), so the job
never deletes or modifies the source file. -/
theorem C10_frame (env : Env) (src : Path) (opts : Options) (detected : String × String)
    (input_root : Option Path) (dst : Path)
    (hpath : compute_output_path src opts input_root = .ok dst)
    (hdel : opts.delete_original = false) :
    (∀ p, Effect.unlink p ∈ (convert_one env src opts detected input_root).2 → p = dst) ∧
    (∀ p, Effect.mkdirP p ∈ (convert_one env src opts detected input_root).2 →
      p = dst.parent) := by
  constructor
  · intro p hp
    rcases convert_one_mem env src opts detected input_root dst _ _ hpath Prod.mk.eta.symm
        (Effect.unlink p) hp with h | ⟨c, h⟩ | ⟨m, h⟩ | h | ⟨h, hd, hr⟩
    · exact absurd h (by simp)
    · exact absurd h (by simp)
    · exact absurd h (by simp)
    · injection h
    · rw [hd] at hdel
      exact absurd hdel (by simp)
  · intro p hp
    rcases convert_one_mem env src opts detected input_root dst _ _ hpath Prod.mk.eta.symm
        (Effect.mkdirP p) hp with h | ⟨c, h⟩ | ⟨m, h⟩ | h | ⟨h, hd, hr⟩
    · injection h
    · exact absurd h (by simp)
    · exact absurd h (by simp)
    · exact absurd h (by simp)
    · exact absurd h (by simp)

/-- A failed encoder run that left a zero-byte destination behind. -/
def envZeroByte : Env :=
  { envNeutral with
    fsExists := fun p => p = dstW
    mtime := fun _ => .error (.fileNotFound "")
    size := fun _ => .ok 0
    run := fun _ => .ok ⟨1, "", "encoder blew up"⟩ }

/-- C10 witness: a concrete failed run does attempt a deletion, and every
deletion and directory creation of that run targets the destination and its
parent respectively. -/
theorem C10_witness :
    Effect.unlink dstW ∈
      (convert_one envZeroByte srcW optsInplaceW ("ffmpeg", "/usr/bin/ffmpeg") none).2 ∧
    (∀ p, Effect.unlink p ∈
        (convert_one envZeroByte srcW optsInplaceW ("ffmpeg", "/usr/bin/ffmpeg") none).2 →
      p = dstW) ∧
    (∀ p, Effect.mkdirP p ∈
        (convert_one envZeroByte srcW optsInplaceW ("ffmpeg", "/usr/bin/ffmpeg") none).2 →
      p = Path.parent dstW) :=
  ⟨by decide,
   (C10_frame envZeroByte srcW optsInplaceW ("ffmpeg", "/usr/bin/ffmpeg") none dstW
      (by decide) rfl).1,
   (C10_frame envZeroByte srcW optsInplaceW ("ffmpeg", "/usr/bin/ffmpeg") none dstW
      (by decide) rfl).2⟩

/-! ### C9 -/

/-- C9 (confirmed): for a job on an eligible `.flac` source, the source file
is only ever deleted when delete-original is set and the job has already
passed conversion and any requested verification — a source deletion attempt
in the trace forces delete-original = true and the terminal successful "ok"
result; and when that deletion itself raises, the job still returns the
successful "ok" result and emits a warning. -/
theorem C9_delete_original (env : Env) (src : Path) (opts : Options)
    (detected : String × String) (input_root : Option Path) (dst : Path)
    (hflac : lowerStr src.suffix = ".flac")
    (hpath : compute_output_path src opts input_root = .ok dst) :
    (Effect.unlink src ∈ (convert_one env src opts detected input_root).2 →
      opts.delete_original = true ∧
      (convert_one env src opts detected input_root).1 = .ok ⟨src, some dst, true, "ok"⟩) ∧
    (∀ e proc,
      should_skip env src dst opts.overwrite = .ok false →
      opts.dry_run = false →
      env.mkdir dst.parent = .ok () →
      detected.1 = "ffmpeg" →
      env.run (build_ffmpeg_cmd detected.2 src dst opts.overwrite opts.keep_artwork) =
        .ok proc →
      proc.returncode = 0 →
      opts.verify = false →
      opts.delete_original = true →
      env.unlink src = .error e →
      (convert_one env src opts detected input_root).1 =
        .ok ⟨src, some dst, true, "ok"⟩ ∧
      Effect.warn ("元ファイル削除に失敗: " ++ src.toStr ++ " (" ++ e.str ++ ")") ∈
        (convert_one env src opts detected input_root).2) := by
  have hne : dst ≠ src := dst_ne_src src opts input_root dst hflac hpath
  constructor
  · intro hp
    rcases convert_one_mem env src opts detected input_root dst _ _ hpath Prod.mk.eta.symm
        (Effect.unlink src) hp with h | ⟨c, h⟩ | ⟨m, h⟩ | h | ⟨h, hd, hr⟩
    · exact absurd h (by simp)
    · exact absurd h (by simp)
    · exact absurd h (by simp)
    · injection h with h'
      exact absurd h'.symm hne
    · exact ⟨hd, hr⟩
  · intro e proc hskip hdry hmk hkind hrun hrc hver hdel hunl
    have hmk' : ensure_parent_dir env dst = .ok () := hmk
    simp [convert_one, hpath, hskip, hdry, hmk', hkind, finish_job,
      run_phase, hrun, hrc, verify_phase, hver, delete_phase, hdel, hunl]

/-- A source whose own deletion fails after a successful conversion. -/
def envDelFail : Env :=
  { envNeutral with
    unlink := fun p => if p = srcW then .error (.osError "busy") else .ok () }

def optsDelW : Options := { optsInplaceW with delete_original := true }

/-- C9 witness: a concrete job whose source deletion raises still returns the
successful "ok" result and warns. -/
theorem C9_witness :
    (convert_one envDelFail srcW optsDelW ("ffmpeg", "/usr/bin/ffmpeg") none).1 =
      .ok ⟨srcW, some dstW, true, "ok"⟩ ∧
    Effect.warn ("元ファイル削除に失敗: " ++ srcW.toStr ++ " (" ++ PyExc.str (.osError "busy") ++ ")") ∈
      (convert_one envDelFail srcW optsDelW ("ffmpeg", "/usr/bin/ffmpeg") none).2 :=
  (C9_delete_original envDelFail srcW optsDelW ("ffmpeg", "/usr/bin/ffmpeg") none dstW
    (by decide) (by decide)).2 (.osError "busy") ⟨0, "", ""⟩
    (by decide) rfl rfl rfl rfl rfl rfl rfl (by decide)

/-! ### C1 -/

/-- C1 (corrected): provided the destination computation succeeds, the skip
check raises nothing (any stat failure during it is a FileNotFoundError), and
the parent-directory creation succeeds, `convert_one` returns a Job Result
tuple (source, destination, flag, message) instead of raising, and a result
can be successful only with the skip, dry-run or "ok" message — every caught
failure is converted into a result with success = false. -/
theorem C1_failures_become_results (env : Env) (src : Path) (opts : Options)
    (detected : String × String) (input_root : Option Path) (dst : Path) (b : Bool)
    (hpath : compute_output_path src opts input_root = .ok dst)
    (hskip : should_skip env src dst opts.overwrite = .ok b)
    (hmk : env.mkdir dst.parent = .ok ()) :
    ∃ r, (convert_one env src opts detected input_root).1 = .ok r ∧
      r.src = src ∧ r.dst = some dst ∧
      (r.success = true →
        r.msg = "skip: 既に最新の出力が存在" ∨ r.msg = "dry-run: 変換予定" ∨ r.msg = "ok") := by
  suffices h : ∀ rt, convert_one env src opts detected input_root = rt →
      ∃ r, rt.1 = .ok r ∧ r.src = src ∧ r.dst = some dst ∧
        (r.success = true →
          r.msg = "skip: 既に最新の出力が存在" ∨ r.msg = "dry-run: 変換予定" ∨ r.msg = "ok") by
    exact h _ rfl
  intro rt hc
  have hmk' : ensure_parent_dir env dst = .ok () := hmk
  unfold convert_one at hc
  rw [hpath] at hc
  dsimp only at hc
  rw [hskip] at hc
  cases b with
  | true =>
    subst hc
    exact ⟨_, rfl, rfl, rfl, fun _ => Or.inl rfl⟩
  | false =>
    dsimp only at hc
    split at hc
    · subst hc
      exact ⟨_, rfl, rfl, rfl, fun _ => Or.inr (Or.inl rfl)⟩
    · rw [hmk'] at hc
      dsimp only at hc
      split at hc
      · subst hc
        obtain ⟨r, h1, hs, hd, hsuc⟩ := finish_job_ok env src dst opts _ _
        exact ⟨r, h1, hs, hd, fun h => Or.inr (Or.inr (hsuc h))⟩
      · split at hc
        · split at hc
          · subst hc
            exact ⟨_, rfl, rfl, rfl, by simp⟩
          · subst hc
            obtain ⟨r, h1, hs, hd, hsuc⟩ := finish_job_ok env src dst opts _ _
            exact ⟨r, h1, hs, hd, fun h => Or.inr (Or.inr (hsuc h))⟩
        · subst hc
          obtain ⟨r, h1, hs, hd, hsuc⟩ := finish_job_ok env src dst opts _ _
          exact ⟨r, h1, hs, hd, fun h => Or.inr (Or.inr (hsuc h))⟩

/-- A parent-directory creation that raises (e.g. permission denied). -/
def envMkdirFail : Env :=
  { envNeutral with mkdir := fun _ => .error (.osError "Permission denied") }

/-- C1 counterexample: the claim promises that `convert_one` never raises to
the dispatcher, but an exception from the unguarded parent-directory creation
propagates out of the job as an error, not a Job Result. -/
theorem C1_counterexample :
    (convert_one envMkdirFail srcW optsInplaceW ("ffmpeg", "/usr/bin/ffmpeg") none).1 =
      .error (.osError "Permission denied") := by decide

/-- C1 witness: a concrete successful job yields an "ok" Job Result through
the amended theorem. -/
theorem C1_witness :
    ∃ r, (convert_one envNeutral srcW optsInplaceW ("ffmpeg", "/usr/bin/ffmpeg") none).1 =
      .ok r ∧ r.src = srcW ∧ r.dst = some dstW ∧
      (r.success = true →
        r.msg = "skip: 既に最新の出力が存在" ∨ r.msg = "dry-run: 変換予定" ∨ r.msg = "ok") :=
  C1_failures_become_results envNeutral srcW optsInplaceW ("ffmpeg", "/usr/bin/ffmpeg") none
    dstW false (by decide) (by decide) rfl

/-! ### C6 -/

theorem run_phase_ok (env : Env) (src dst : Path) (cmd : List String) (proc : RunResult)
    (hrun : env.run cmd = .ok proc) (hrc : proc.returncode = 0) :
    run_phase env src dst cmd = (none, [Effect.runP cmd]) := by
  simp [run_phase, hrun, hrc]

/-- A job that passes the skip check, dry-run check and directory creation
with the primary backend reduces to `finish_job` on the ffmpeg command. -/
theorem convert_one_to_finish (env : Env) (src : Path) (opts : Options)
    (detected : String × String) (input_root : Option Path) (dst : Path)
    (hpath : compute_output_path src opts input_root = .ok dst)
    (hskip : should_skip env src dst opts.overwrite = .ok false)
    (hdry : opts.dry_run = false)
    (hmk : env.mkdir dst.parent = .ok ())
    (hkind : detected.1 = "ffmpeg") :
    convert_one env src opts detected input_root =
      finish_job env src dst opts
        (build_ffmpeg_cmd detected.2 src dst opts.overwrite opts.keep_artwork)
        [Effect.mkdirP dst.parent] := by
  have hmk' : ensure_parent_dir env dst = .ok () := hmk
  simp [convert_one, hpath, hskip, hdry, hmk', hkind]

/-- C6 (confirmed): with verification requested after a successful encoder
run: (a) with a resolved verify encoder and differing PCM digests of source
and destination, the job fails with the mismatch message, attempting deletion
of the destination when it exists (best-effort); (b)/(c) an exception while
computing either digest fails the job with "verify失敗: " plus the underlying
error's text; (d) with no resolved verify encoder, a warning is emitted,
verification is skipped, and the job still succeeds with "ok". -/
theorem C6_verify (env : Env) (src : Path) (opts : Options) (detected : String × String)
    (input_root : Option Path) (dst : Path) (proc : RunResult)
    (hpath : compute_output_path src opts input_root = .ok dst)
    (hskip : should_skip env src dst opts.overwrite = .ok false)
    (hdry : opts.dry_run = false)
    (hmk : env.mkdir dst.parent = .ok ())
    (hkind : detected.1 = "ffmpeg")
    (hrun : env.run (build_ffmpeg_cmd detected.2 src dst opts.overwrite opts.keep_artwork) =
      .ok proc)
    (hrc : proc.returncode = 0)
    (hver : opts.verify = true) :
    (∀ ff m1 m2 t1 t2, opts.ffmpeg_for_verify = some ff →
      compute_pcm_md5 env ff src = (.ok m1, t1) →
      compute_pcm_md5 env ff dst = (.ok m2, t2) → m1 ≠ m2 →
      (convert_one env src opts detected input_root).1 =
        .ok ⟨src, some dst, false, "verify不一致: PCM MD5が一致しません"⟩ ∧
      (env.fsExists dst = true →
        Effect.unlink dst ∈ (convert_one env src opts detected input_root).2)) ∧
    (∀ ff e t1, opts.ffmpeg_for_verify = some ff →
      compute_pcm_md5 env ff src = (.error e, t1) →
      (convert_one env src opts detected input_root).1 =
        .ok ⟨src, some dst, false, "verify失敗: " ++ e.str⟩) ∧
    (∀ ff m1 e t1 t2, opts.ffmpeg_for_verify = some ff →
      compute_pcm_md5 env ff src = (.ok m1, t1) →
      compute_pcm_md5 env ff dst = (.error e, t2) →
      (convert_one env src opts detected input_root).1 =
        .ok ⟨src, some dst, false, "verify失敗: " ++ e.str⟩) ∧
    (opts.ffmpeg_for_verify = none →
      (convert_one env src opts detected input_root).1 = .ok ⟨src, some dst, true, "ok"⟩ ∧
      Effect.warn "--verify 指定ですが ffmpeg が見つからないため検証をスキップします" ∈
        (convert_one env src opts detected input_root).2) := by
  rw [convert_one_to_finish env src opts detected input_root dst hpath hskip hdry hmk hkind]
  have hrp := run_phase_ok env src dst
    (build_ffmpeg_cmd detected.2 src dst opts.overwrite opts.keep_artwork) proc hrun hrc
  refine ⟨?_, ?_, ?_, ?_⟩
  · intro ff m1 m2 t1 t2 hff h1 h2 hne
    constructor
    · by_cases hex : env.fsExists dst = true
      · simp [finish_job, hrp, verify_phase, hver, hff, h1, h2, hne, hex]
      · simp [finish_job, hrp, verify_phase, hver, hff, h1, h2, hne, hex]
    · intro hex
      simp [finish_job, hrp, verify_phase, hver, hff, h1, h2, hne, hex]
  · intro ff e t1 hff h1
    simp [finish_job, hrp, verify_phase, hver, hff, h1]
  · intro ff m1 e t1 t2 hff h1 h2
    simp [finish_job, hrp, verify_phase, hver, hff, h1, h2]
  · intro hff
    simp [finish_job, hrp, verify_phase, hver, hff, delete_phase_fst]

/-- Options requesting verification with no resolved verify encoder. -/
def optsVerifyNoneW : Options := { optsInplaceW with verify := true }

/-- C6 witness: a concrete run with verify requested but no verify encoder
resolved warns, skips verification, and still succeeds. -/
theorem C6_witness :
    (convert_one envNeutral srcW optsVerifyNoneW ("ffmpeg", "/usr/bin/ffmpeg") none).1 =
      .ok ⟨srcW, some dstW, true, "ok"⟩ ∧
    Effect.warn "--verify 指定ですが ffmpeg が見つからないため検証をスキップします" ∈
      (convert_one envNeutral srcW optsVerifyNoneW ("ffmpeg", "/usr/bin/ffmpeg") none).2 :=
  (C6_verify envNeutral srcW optsVerifyNoneW ("ffmpeg", "/usr/bin/ffmpeg") none dstW
    ⟨0, "", ""⟩ (by decide) (by decide) rfl rfl rfl rfl rfl rfl).2.2.2 rfl

/-! ### C3 -/

/-- A path collected by `gather_inputs` from the given inputs: a directly
given eligible file, or an eligible file strictly below a given directory
(a given path that is not itself an eligible file). -/
def collectedFrom (fs : FS) (paths : List Path) (x : Path) : Prop :=
  ∃ p ∈ paths, (p = x ∧ eligibleFile fs x = true) ∨
    (eligibleFile fs p = false ∧ fs.isDir p = true ∧ strictUnder p x = true ∧
      eligibleFile fs x = true)

theorem eligible_mem_entries (fs : FS) (x : Path) (h : eligibleFile fs x = true) :
    x ∈ fs.files ++ fs.dirs := by
  rw [eligibleFile, Bool.and_eq_true] at h
  rw [List.mem_append]
  exact Or.inl (by simpa [FS.isFile] using h.1)

theorem gather_fold_mem (fs : FS) (x : Path) :
    ∀ (paths : List Path) (acc : List Path),
      (x ∈ paths.foldl (fun files p =>
        if fs.isFile p && SUPPORTED_INPUT_EXTS.contains (lowerStr p.suffix) then files ++ [p]
        else if fs.isDir p then
          files ++ (fs.rglob p).filter
            (fun f => fs.isFile f && SUPPORTED_INPUT_EXTS.contains (lowerStr f.suffix))
        else files) acc) ↔ x ∈ acc ∨ collectedFrom fs paths x
  | [], acc => by simp [collectedFrom]
  | p :: ps, acc => by
    rw [List.foldl_cons, gather_fold_mem fs x ps _]
    have hcp : collectedFrom fs (p :: ps) x ↔
        ((p = x ∧ eligibleFile fs x = true) ∨
          (eligibleFile fs p = false ∧ fs.isDir p = true ∧ strictUnder p x = true ∧
            eligibleFile fs x = true)) ∨ collectedFrom fs ps x := by
      unfold collectedFrom
      constructor
      · rintro ⟨q, hq, hP⟩
        rcases List.mem_cons.mp hq with rfl | hq
        · exact Or.inl hP
        · exact Or.inr ⟨q, hq, hP⟩
      · rintro (hP | ⟨q, hq, hP⟩)
        · exact ⟨p, List.mem_cons_self p ps, hP⟩
        · exact ⟨q, List.mem_cons_of_mem p hq, hP⟩
    rw [hcp]
    by_cases h1 : (fs.isFile p && SUPPORTED_INPUT_EXTS.contains (lowerStr p.suffix)) = true
    · rw [if_pos h1]
      have h1' : eligibleFile fs p = true := h1
      constructor
      · rintro (hx | hcol)
        · rcases List.mem_append.mp hx with hx | hx
          · exact Or.inl hx
          · simp only [List.mem_singleton] at hx
            subst hx
            exact Or.inr (Or.inl (Or.inl ⟨rfl, h1'⟩))
        · exact Or.inr (Or.inr hcol)
      · rintro (hx | ((⟨rfl, hex⟩ | ⟨hne, _⟩) | hcol))
        · exact Or.inl (List.mem_append.mpr (Or.inl hx))
        · exact Or.inl (List.mem_append.mpr (Or.inr (by simp)))
        · rw [h1'] at hne
          exact absurd hne (by simp)
        · exact Or.inr hcol
    · rw [if_neg h1]
      have h1' : eligibleFile fs p = false := by
        have := h1
        rw [eligibleFile]
        simpa using this
      by_cases h2 : fs.isDir p = true
      · rw [if_pos h2]
        constructor
        · rintro (hx | hcol)
          · rcases List.mem_append.mp hx with hx | hx
            · exact Or.inl hx
            · rw [List.mem_filter] at hx
              obtain ⟨hglob, helig⟩ := hx
              rw [FS.rglob, List.mem_filter] at hglob
              exact Or.inr (Or.inl (Or.inr ⟨h1', h2, hglob.2, helig⟩))
          · exact Or.inr (Or.inr hcol)
        · rintro (hx | ((⟨rfl, hex⟩ | ⟨_, _, hund, hex⟩) | hcol))
          · exact Or.inl (List.mem_append.mpr (Or.inl hx))
          · rw [hex] at h1'
            exact absurd h1' (by simp)
          · refine Or.inl (List.mem_append.mpr (Or.inr ?_))
            rw [List.mem_filter]
            exact ⟨by rw [FS.rglob, List.mem_filter]
                      exact ⟨eligible_mem_entries fs x hex, hund⟩, hex⟩
          · exact Or.inr hcol
      · rw [if_neg h2]
        constructor
        · rintro (hx | hcol)
          · exact Or.inl hx
          · exact Or.inr (Or.inr hcol)
        · rintro (hx | ((⟨rfl, hex⟩ | ⟨_, hdir, _⟩) | hcol))
          · exact Or.inl hx
          · rw [hex] at h1'
            exact absurd h1' (by simp)
          · exact absurd hdir h2
          · exact Or.inr hcol

/-- C3 (corrected): `gather_inputs` returns exactly the eligible source files
— each given path that is itself an eligible file, plus every eligible file
strictly below each given directory — sorted in ascending case-sensitive
path-string order; it performs no deduplication. -/
theorem C3_gather_inputs (fs : FS) (paths : List Path) :
    List.Sorted pathLeP (gather_inputs fs paths) ∧
    ∀ x, x ∈ gather_inputs fs paths ↔ collectedFrom fs paths x := by
  constructor
  · exact List.sorted_insertionSort pathLeP _
  · intro x
    rw [gather_inputs, pySort, List.mem_insertionSort, gather_fold_mem fs x paths []]
    simp

/-- The same eligible file handed in twice. -/
def fsDupC : FS := { files := [srcW], dirs := [] }

/-- A directory holding two files whose names differ only in case order. -/
def fsCaseC : FS :=
  { files := [⟨["d", "B.flac"]⟩, ⟨["d", "a.flac"]⟩], dirs := [⟨["d"]⟩] }

/-- C3 counterexample: the same file given twice appears twice in the result
(no deduplication), and directory traversal output is ordered
case-sensitively — "d/B.flac" sorts before "d/a.flac" although the
case-insensitive order is the opposite — refuting both the "no duplicate
paths" and the "ordered case-insensitively" parts of the claim. -/
theorem C3_counterexample :
    gather_inputs fsDupC [srcW, srcW] = [srcW, srcW] ∧
    ¬ (gather_inputs fsDupC [srcW, srcW]).Nodup ∧
    gather_inputs fsCaseC [⟨["d"]⟩] = [⟨["d", "B.flac"]⟩, ⟨["d", "a.flac"]⟩] ∧
    strLeB (lowerStr (Path.toStr ⟨["d", "a.flac"]⟩)) (lowerStr (Path.toStr ⟨["d", "B.flac"]⟩)) =
      true ∧
    ¬ lowerStr (Path.toStr ⟨["d", "a.flac"]⟩) = lowerStr (Path.toStr ⟨["d", "B.flac"]⟩) := by
  decide

/-! ### C7 -/

/-- C7 (corrected): the selection cascade — fallback when preferred and
available; else primary when available; else fallback with a warning; else
the fatal no-encoder error — where the primary is available exactly when a
NON-EMPTY explicit path resolves via the executable search (the chosen path
then being the explicit string), and an absent or EMPTY explicit path falls
back to the standard search for "ffmpeg" (Python truthiness). -/
theorem C7_detect_converter (se : SysEnv) (prefer : Bool) (fp : Option String) :
    (∀ a, which_afconvert se = some a → prefer = true →
      (detect_converter se prefer fp).1 = .ok ("afconvert", a)) ∧
    (∀ f, which_ffmpeg se fp = some f → (prefer = false ∨ which_afconvert se = none) →
      (detect_converter se prefer fp).1 = .ok ("ffmpeg", f)) ∧
    (∀ a, prefer = false → which_ffmpeg se fp = none → which_afconvert se = some a →
      (detect_converter se prefer fp).1 = .ok ("afconvert", a) ∧
      (detect_converter se prefer fp).2 ≠ []) ∧
    (which_ffmpeg se fp = none → which_afconvert se = none →
      (detect_converter se prefer fp).1 =
        .error (.runtimeError "ffmpeg または afconvert が見つかりません。インストールしてください。")) ∧
    (∀ e, fp = some e → e ≠ "" →
      (which_ffmpeg se fp = some e ↔ (se.which e).isSome = true) ∧
      (which_ffmpeg se fp = none ↔ se.which e = none)) ∧
    ((fp = none ∨ fp = some "") → which_ffmpeg se fp = se.which "ffmpeg") := by
  refine ⟨?_, ?_, ?_, ?_, ?_, ?_⟩
  · intro a ha hp
    simp [detect_converter, ha, hp]
  · intro f hf hc
    rcases hc with hp | ha
    · cases hac : which_afconvert se with
      | none => simp [detect_converter, hac, hf]
      | some a => simp [detect_converter, hac, hf, hp]
    · simp [detect_converter, ha, hf]
  · intro a hp hf ha
    constructor <;> simp [detect_converter, ha, hf, hp]
  · intro hf ha
    simp [detect_converter, ha, hf]
  · intro e hfp he
    subst hfp
    constructor
    · constructor
      · intro h
        rw [which_ffmpeg, if_pos he] at h
        by_cases hw : (se.which e).isSome = true
        · exact hw
        · rw [if_neg hw] at h
          exact absurd h (by simp)
      · intro h
        rw [which_ffmpeg, if_pos he, if_pos h]
    · constructor
      · intro h
        rw [which_ffmpeg, if_pos he] at h
        by_cases hw : (se.which e).isSome = true
        · rw [if_pos hw] at h
          exact absurd h (by simp)
        · cases hwe : se.which e with
          | none => rfl
          | some v => rw [hwe] at hw; simp at hw
      · intro h
        rw [which_ffmpeg, if_pos he, if_neg (by simp [h])]
  · rintro (rfl | rfl)
    · rfl
    · simp [which_ffmpeg]

def seOnlyFF : SysEnv :=
  { which := fun s => if s = "ffmpeg" then some "/usr/bin/ffmpeg" else none }

/-- C7 counterexample: with the explicit encoder path given as the empty
string, the executable search accepts neither "" nor afconvert, so by the
claim the primary is unavailable and detection must fail with the no-encoder
error; the code instead treats "" as "not given" (Python truthiness), finds
"ffmpeg" by the standard search, and succeeds with the primary backend. -/
theorem C7_counterexample :
    seOnlyFF.which "" = none ∧ which_afconvert seOnlyFF = none ∧
    (detect_converter seOnlyFF false (some "")).1 = .ok ("ffmpeg", "/usr/bin/ffmpeg") := by
  decide

def seOnlyAF : SysEnv :=
  { which := fun s => if s = "afconvert" then some "/usr/bin/afconvert" else none }

/-- C7 witness: with only the fallback present and no preference, the
fallback is chosen with a warning. -/
theorem C7_witness :
    (detect_converter seOnlyAF false none).1 = .ok ("afconvert", "/usr/bin/afconvert") ∧
    (detect_converter seOnlyAF false none).2 ≠ [] :=
  (C7_detect_converter seOnlyAF false none).2.2.1 "/usr/bin/afconvert" rfl rfl rfl

/-! ### C8 -/

/-- C8 (corrected): `main` returns 2 when in-place and an output directory
are both requested, 127 when no encoder backend is found, 0 when there are no
eligible inputs, and otherwise 0 exactly when no job result is classified
FAIL — success = false AND a message starting with neither "skip" nor
"dry-run".  A failed result whose message begins with one of those prefixes
is counted as SKIP/DRY, not as a failure. -/
theorem C8_exit_codes (se : SysEnv) (fs : FS) (env : Env) (cwd : Path) (args : Args) :
    (args.inplace = true → args.output.isSome = true → main se fs env cwd args = .ok 2) ∧
    (∀ e, (args.inplace = true → args.output.isSome = false) →
      (detect_converter se args.prefer_afconvert args.ffmpeg_path).1 = .error e →
      main se fs env cwd args = .ok 127) ∧
    (∀ detected, (args.inplace = true → args.output.isSome = false) →
      (detect_converter se args.prefer_afconvert args.ffmpeg_path).1 = .ok detected →
      gather_inputs fs (main_inputs cwd args.inputs) = [] →
      main se fs env cwd args = .ok 0) ∧
    (∀ detected files results, (args.inplace = true → args.output.isSome = false) →
      (detect_converter se args.prefer_afconvert args.ffmpeg_path).1 = .ok detected →
      gather_inputs fs (main_inputs cwd args.inputs) = files → files ≠ [] →
      run_jobs env files (main_opts se cwd args) detected
        (main_input_root fs cwd (main_inputs cwd args.inputs)) = .ok results →
      main se fs env cwd args = .ok (if countFailed results = 0 then 0 else 1) ∧
      (countFailed results = 0 ↔ ∀ r ∈ results, r.success = false →
        (pyStartsWith r.msg "skip" = true ∨ pyStartsWith r.msg "dry-run" = true))) := by
  have hp1 : (main_opts se cwd args).prefer_afconvert = args.prefer_afconvert := rfl
  have hp2 : (main_opts se cwd args).ffmpeg_path = args.ffmpeg_path := rfl
  refine ⟨?_, ?_, ?_, ?_⟩
  · intro hin hout
    have hguard : (args.inplace && (main_output_dir cwd args).isSome) = true := by
      simp [main_output_dir, hin, hout]
    simp [main, hguard]
  · intro e hpass hdet
    have hguard : (args.inplace && (main_output_dir cwd args).isSome) = false := by
      cases hin : args.inplace with
      | false => simp
      | true => simp [main_output_dir, hin, hpass hin]
    simp only [main, hguard, Bool.false_eq_true, if_false, hp1, hp2, hdet]
  · intro detected hpass hdet hgather
    have hguard : (args.inplace && (main_output_dir cwd args).isSome) = false := by
      cases hin : args.inplace with
      | false => simp
      | true => simp [main_output_dir, hin, hpass hin]
    simp only [main, hguard, Bool.false_eq_true, if_false, hp1, hp2, hdet, hgather]
    simp
  · intro detected files results hpass hdet hgather hne hrun
    constructor
    · have hguard : (args.inplace && (main_output_dir cwd args).isSome) = false := by
        cases hin : args.inplace with
        | false => simp
        | true => simp [main_output_dir, hin, hpass hin]
      simp only [main, hguard, Bool.false_eq_true, if_false, hp1, hp2, hdet, hgather]
      simp only [List.isEmpty_eq_true, hne, if_false, hrun]
    · rw [countFailed, List.countP_eq_zero]
      constructor
      · intro h r hr hsuc
        by_cases hsk : pyStartsWith r.msg "skip" = true
        · exact Or.inl hsk
        · by_cases hdr : pyStartsWith r.msg "dry-run" = true
          · exact Or.inr hdr
          · exact absurd (show (!(pyStartsWith r.msg "skip") && !(pyStartsWith r.msg "dry-run") &&
              !r.success) = true by simp [hsk, hdr, hsuc]) (h r hr)
      · intro h r hr
        cases hsuc : r.success with
        | true => simp [hsuc]
        | false =>
          rcases h r hr hsuc with hsk | hdr
          · simp [hsk]
          · simp [hdr]

/-- One eligible file in the filesystem root. -/
def fsOneW : FS := { files := [srcW], dirs := [] }

def cwdW : Path := ⟨["/", "home"]⟩

/-- Post-parse arguments: in-place conversion of the single file. -/
def argsInplaceW : Args :=
  { inputs := [srcW], output := none, inplace := true, workers := 1, dry_run := false,
    overwrite := false, keep_artwork := true, prefer_afconvert := false, ffmpeg_path := none,
    delete_original := false, verify := false }

/-- An encoder that fails with stderr text starting with "skip". -/
def envSneaky : Env :=
  { envNeutral with run := fun _ => .ok ⟨1, "", "skip: encoder exploded"⟩ }

/-- C8 counterexample: the only job fails (success = false, nonzero encoder
exit) but its stderr begins with "skip", so the reporter classifies it SKIP
and `main` returns 0 although a job result's success flag is false — refuting
"1 when at least one job result's success flag is false". -/
theorem C8_counterexample :
    (convert_one envSneaky srcW (main_opts seOnlyFF cwdW argsInplaceW)
        ("ffmpeg", "/usr/bin/ffmpeg")
        (main_input_root fsOneW cwdW (main_inputs cwdW argsInplaceW.inputs))).1 =
      .ok ⟨srcW, some dstW, false, "skip: encoder exploded"⟩ ∧
    main seOnlyFF fsOneW envSneaky cwdW argsInplaceW = .ok 0 := by decide

/-- C8 witness: a concrete successful run through the amended exit-code
characterization. -/
theorem C8_witness :
    main seOnlyFF fsOneW envNeutral cwdW argsInplaceW =
      .ok (if countFailed [⟨srcW, some dstW, true, "ok"⟩] = 0 then 0 else 1) ∧
    (countFailed [⟨srcW, some dstW, true, "ok"⟩] = 0 ↔
      ∀ r ∈ [(⟨srcW, some dstW, true, "ok"⟩ : JobResult)], r.success = false →
        (pyStartsWith r.msg "skip" = true ∨ pyStartsWith r.msg "dry-run" = true)) :=
  (C8_exit_codes seOnlyFF fsOneW envNeutral cwdW argsInplaceW).2.2.2
    ("ffmpeg", "/usr/bin/ffmpeg") [srcW] [⟨srcW, some dstW, true, "ok"⟩]
    (fun _ => rfl) (by decide) (by decide) (by decide) (by decide)

/-! ### C2 -/

def seFFonly : SysEnv := seOnlyFF

def fsC2 : FS := { files := [⟨["music", "a.flac"]⟩], dirs := [⟨["music"]⟩] }

def cwdC2 : Path := ⟨["/", "home", "user"]⟩

/-- Arguments: the single relative directory "music", output directory "out". -/
def argsC2 : Args :=
  { inputs := [⟨["music"]⟩], output := some ⟨["out"]⟩, inplace := false, workers := 1,
    dry_run := false, overwrite := false, keep_artwork := true, prefer_afconvert := false,
    ffmpeg_path := none, delete_original := false, verify := false }

/-- C2 (code bug): with the single relative directory input "music" (cwd
/home/user), the collected source "music/a.flac" is not prefixed by the
RESOLVED input root "/home/user/music" that `main` computes, so
`Path.relative_to` raises ValueError inside `compute_output_path`, the
exception escapes the job, and the run crashes instead of producing the
mirrored destination out/a.m4a required by the claim.  (With an absolute,
already-normalized input directory the mirroring works; the slip is resolving
the root but not the gathered sources.) -/
theorem C2_resolve_mismatch :
    gather_inputs fsC2 [⟨["music"]⟩] = [⟨["music", "a.flac"]⟩] ∧
    main_input_root fsC2 cwdC2 [⟨["music"]⟩] = some ⟨["/", "home", "user", "music"]⟩ ∧
    compute_output_path ⟨["music", "a.flac"]⟩ (main_opts seFFonly cwdC2 argsC2)
        (some ⟨["/", "home", "user", "music"]⟩) =
      .error (.valueError "music/a.flac is not in the subtree of /home/user/music") ∧
    main seFFonly fsC2 envNeutral cwdC2 argsC2 =
      .error (.valueError "music/a.flac is not in the subtree of /home/user/music") := by
  decide

end F2A
